import Mathlib

/-!
Formal model of the purge handler in `src/handlers/purge.rs` (warden-worker).

A shallow embedding of the purge handler that permanently deletes
soft-deleted cipher rows older than a configured retention window.

* Machine integers (`i64` retention days, millisecond timestamps) are
  modelled as `Int`; the `i64` range check of Rust's `str::parse::<i64>`
  is explicit.
* The Cloudflare environment (`worker::Env`) is modelled by the one value
  the handler reads: the optional `TRASH_AUTO_DELETE_DAYS` variable.
* The D1 database is modelled as a list of rows plus fault-injection
  fields (the handle acquisition, the count query and the delete query can
  each fail; the count query's first-row lookup can come back empty), and
  one optional concurrent overwrite of the table between the count and the
  delete, so that the count-then-delete race is observable.
* `chrono`'s `Utc::now() - Duration::days(d)` followed by
  `format("%Y-%m-%dT%H:%M:%S%.3fZ")` is modelled on milliseconds since the
  Unix epoch, with the standard civil-from-days conversion for the
  proleptic Gregorian calendar (the calendar chrono implements).
-/

set_option maxRecDepth 10000

/-- A row of the `ciphers` table, reduced to the attributes the purge
handler touches: an identifier and the nullable `deleted_at` timestamp
(stored as TEXT; `none` means the cipher is active). -/
structure CipherRow where
  id : Nat
  deleted_at : Option String
deriving DecidableEq, Repr

/-- The SQL predicate `deleted_at IS NOT NULL AND deleted_at < ?1` used by
both the count and the delete statement; D1/SQLite compares TEXT values
lexicographically (byte order, stated here on the character lists). -/
def matchesPredicate (cutoff : String) (r : CipherRow) : Bool :=
  match r.deleted_at with
  | none => false
  | some d => decide (d.data < cutoff.data)

/-- The part of `worker::Env` the handler reads:
`env.var("TRASH_AUTO_DELETE_DAYS").ok()`, i.e. the raw string value when
the variable is present. -/
structure Env where
  trashAutoDeleteDays : Option String
deriving DecidableEq, Repr

/-- Rust constant `DEFAULT_PURGE_DAYS: i64 = 30`. -/
def DEFAULT_PURGE_DAYS : Int := 30

/-- Rust's `str::parse::<i64>`: an optional `+`/`-` sign, then one or more
ASCII digits, nothing else; values outside the `i64` range fail. -/
def parseI64 (s : String) : Option Int :=
  let step : List Char → Option Nat := fun ds =>
    if ds = [] then none
    else if ds.all Char.isDigit then
      some (ds.foldl (fun acc c => acc * 10 + (c.toNat - '0'.toNat)) 0)
    else none
  let signed : Option Int :=
    match s.data with
    | '+' :: rest => (step rest).map (fun n => (n : Int))
    | '-' :: rest => (step rest).map (fun n => -(n : Int))
    | cs => (step cs).map (fun n => (n : Int))
  signed.bind (fun v => if -(2 ^ 63) ≤ v ∧ v < 2 ^ 63 then some v else none)

/-- Function `get_purge_days`: read `TRASH_AUTO_DELETE_DAYS`, parse it as `i64`,
fall back to `DEFAULT_PURGE_DAYS` when missing or unparsable. -/
def get_purge_days (env : Env) : Int :=
  ((env.trashAutoDeleteDays.bind parseI64).getD DEFAULT_PURGE_DAYS)

/-- Decimal digits of a natural number, most significant first.  Fuel-based
structural recursion so that concrete instances reduce in the kernel; any
fuel of at least `n` gives the true digit string of `n`. -/
def digitsAux : Nat → Nat → List Char
  | 0, n => [Nat.digitChar (n % 10)]
  | fuel + 1, n =>
    if n < 10 then [Nat.digitChar n]
    else digitsAux fuel (n / 10) ++ [Nat.digitChar (n % 10)]

/-- Decimal digit string of `n`, most significant first (`natDigits 0 = ['0']`). -/
def natDigits (n : Nat) : List Char := digitsAux n n

/-- Zero-pad the decimal rendering of `n` on the left to width `w`
(chrono prints the full number when it is wider than the field). -/
def padNum (w : Nat) (n : Nat) : String :=
  ⟨List.replicate (w - (natDigits n).length) '0' ++ natDigits n⟩

/-- Zero-padded rendering of a signed field, minus sign first, as chrono
renders negative years. -/
def intPad (w : Nat) (v : Int) : String :=
  if v < 0 then ("-" ++ padNum w (-v).toNat) else padNum w v.toNat

/-- Proleptic-Gregorian date of a day number (days since 1970-01-01), the
standard civil-from-days algorithm; returns `(year, month, day)`.  This is
the calendar `chrono::DateTime<Utc>` formats with. -/
def civilFromDays (day : Int) : Int × Int × Int :=
  let z := day + 719468
  let era := z / 146097
  let doe := z - era * 146097
  let yoe := (doe - doe / 1460 + doe / 36524 - doe / 146096) / 365
  let doy := doe - (365 * yoe + yoe / 4 - yoe / 100)
  let mp := (5 * doy + 2) / 153
  let d := doy - (153 * mp + 2) / 5 + 1
  let m := mp + (if mp < 10 then 3 else -9)
  (yoe + era * 400 + (if m ≤ 2 then 1 else 0), m, d)

/-- Rendering of a UTC instant with `format("%Y-%m-%dT%H:%M:%S%.3fZ")`, given in
milliseconds since the Unix epoch. -/
def fmtMillis (t : Int) : String :=
  let ms := t % 1000
  let q := t / 1000
  let sod := q % 86400
  let ymd := civilFromDays (q / 86400)
  intPad 4 ymd.1 ++ "-" ++ intPad 2 ymd.2.1 ++ "-" ++ intPad 2 ymd.2.2 ++ "T" ++
    intPad 2 (sod / 3600) ++ ":" ++ intPad 2 (sod % 3600 / 60) ++ ":" ++
    intPad 2 (sod % 60) ++ "." ++ intPad 3 ms ++ "Z"

/-- Milliseconds in a day: `chrono::Duration::days(1)`. -/
def msPerDay : Int := 86400000

/-- The proleptic-Gregorian year in which the instant `t` (milliseconds
since the epoch) falls. -/
def yearOf (t : Int) : Int := (civilFromDays (t / 1000 / 86400)).1

/-- The cutoff string the handler computes and passes to both queries:
`(now - Duration::days(purge_days)).format("%Y-%m-%dT%H:%M:%S%.3fZ")`. -/
def cutoffStr (env : Env) (now : Int) : String :=
  fmtMillis (now - get_purge_days env * msPerDay)

/-- One request sent to the D1 store, tagged with the bound
cutoff-timestamp parameter. -/
inductive StoreOp where
  | countQ (cutoff : String)
  | deleteQ (cutoff : String)
deriving DecidableEq, Repr

/-- The cutoff parameter bound in a store request. -/
def StoreOp.cutoffArg : StoreOp → String
  | .countQ c => c
  | .deleteQ c => c

/-- Model of the D1 store at invocation time: the current rows of the
`ciphers` table, fault injection for the three fallible store
interactions, an empty first-row result for the count query, and an
optional concurrent overwrite of the table that takes effect between a
successful count and the delete. -/
structure Store where
  rows : List CipherRow
  d1Error : Option String
  countError : Option String
  countRowMissing : Bool
  deleteError : Option String
  interveningRows : Option (List CipherRow)
deriving DecidableEq, Repr

/-- What one invocation of the handler produced: its return value, the
rows left in the store, and the trace of requests it issued. -/
structure PurgeOutcome where
  result : Except String Nat
  rows : List CipherRow
  trace : List StoreOp
deriving Repr

/-- The handler `purge_deleted_ciphers`: read the retention period; if it is `<= 0`
return `Ok(0)` without touching the store; otherwise acquire the D1
handle, compute the cutoff, count the rows matching
`deleted_at IS NOT NULL AND deleted_at < cutoff` (an absent first row
counts as 0), and if the count is positive delete the rows matching the
identical predicate, returning the pre-delete count; every store failure
is propagated unchanged via `?`. -/
def purge_deleted_ciphers (env : Env) (store : Store) (now : Int) : PurgeOutcome :=
  let purge_days := get_purge_days env
  if purge_days ≤ 0 then
    { result := .ok 0, rows := store.rows, trace := [] }
  else
    match store.d1Error with
    | some e => { result := .error e, rows := store.rows, trace := [] }
    | none =>
      let cutoff_str := cutoffStr env now
      match store.countError with
      | some e =>
        { result := .error e, rows := store.rows, trace := [.countQ cutoff_str] }
      | none =>
        let countRes : Option Nat :=
          if store.countRowMissing then none
          else some (store.rows.filter (matchesPredicate cutoff_str)).length
        let count := countRes.getD 0
        let effRows := store.interveningRows.getD store.rows
        if count > 0 then
          match store.deleteError with
          | some e =>
            { result := .error e, rows := effRows,
              trace := [.countQ cutoff_str, .deleteQ cutoff_str] }
          | none =>
            { result := .ok count,
              rows := effRows.filter (fun r => !matchesPredicate cutoff_str r),
              trace := [.countQ cutoff_str, .deleteQ cutoff_str] }
        else
          { result := .ok count, rows := effRows, trace := [.countQ cutoff_str] }

/-- C2: for every configured retention value `retention_days <= 0`,
`purge_deleted_ciphers` performs no database access at all (empty request
trace, rows untouched, the store handle is never acquired — even a store
whose handle acquisition would fail is never consulted) and returns a
success result of 0; the disabled case is never an error. -/
theorem C2_disabled_no_store_access (env : Env) (store : Store) (now : Int)
    (h : get_purge_days env ≤ 0) :
    purge_deleted_ciphers env store now =
      { result := .ok 0, rows := store.rows, trace := [] } := by
  simp [purge_deleted_ciphers, h]

/-- Witness for C2 at `TRASH_AUTO_DELETE_DAYS=0`, on a store whose handle
acquisition would fail and which holds a soft-deleted row. -/
theorem C2_disabled_no_store_access_witness :
    get_purge_days ⟨some ("0")⟩ ≤ 0 ∧
    purge_deleted_ciphers ⟨some ("0")⟩
        ⟨[⟨1, some ("1970-01-01T00:00:00.000Z")⟩], some ("db down"), none, false, none, none⟩ 0 =
      { result := .ok 0, rows := [⟨1, some ("1970-01-01T00:00:00.000Z")⟩], trace := [] } :=
  ⟨by decide, C2_disabled_no_store_access _ _ _ (by decide)⟩

/-- C6: a missing or unparsable `TRASH_AUTO_DELETE_DAYS` yields the
30-day default; a value that parses as an `i64` (negative values
included) is used as is. -/
theorem C6_retention_from_environment (env : Env) :
    (env.trashAutoDeleteDays = none → get_purge_days env = 30) ∧
    (∀ s, env.trashAutoDeleteDays = some s → parseI64 s = none →
      get_purge_days env = 30) ∧
    (∀ s v, env.trashAutoDeleteDays = some s → parseI64 s = some v →
      get_purge_days env = v) := by
  refine ⟨fun h => ?_, fun s h hp => ?_, fun s v h hp => ?_⟩ <;>
    simp [get_purge_days, h, DEFAULT_PURGE_DAYS] <;> simp [hp]

/-- Witness for C6: absent variable, garbage value, and a negative
integer value. -/
theorem C6_retention_from_environment_witness :
    get_purge_days ⟨none⟩ = 30 ∧ get_purge_days ⟨some ("abc")⟩ = 30 ∧
    get_purge_days ⟨some ("-5")⟩ = -5 :=
  ⟨(C6_retention_from_environment ⟨none⟩).1 rfl,
   (C6_retention_from_environment ⟨some ("abc")⟩).2.1 ("abc") rfl (by decide),
   (C6_retention_from_environment ⟨some ("-5")⟩).2.2 ("-5") (-5) rfl (by decide)⟩

/-- C8: every invocation issues at most two store requests — possibly
none, possibly a single count, possibly a count followed by a delete with
the same cutoff parameter — and nothing else. -/
theorem C8_at_most_two_sequential_requests (env : Env) (store : Store) (now : Int) :
    (purge_deleted_ciphers env store now).trace = [] ∨
    (purge_deleted_ciphers env store now).trace = [.countQ (cutoffStr env now)] ∨
    (purge_deleted_ciphers env store now).trace =
      [.countQ (cutoffStr env now), .deleteQ (cutoffStr env now)] := by
  rcases store with ⟨rows, d1, ce, crm, de, ir⟩
  by_cases h : get_purge_days env ≤ 0
  · simp [purge_deleted_ciphers, h]
  · cases d1 <;> cases ce <;> cases crm <;> cases de <;>
      simp [purge_deleted_ciphers, h] <;> split <;> simp

/-- C10: when the count query succeeds but its first-row lookup returns
no row, the handler treats the count as 0, issues no delete, and returns
success with 0. -/
theorem C10_missing_count_row_is_zero (env : Env) (store : Store) (now : Int)
    (hdays : 0 < get_purge_days env) (h1 : store.d1Error = none)
    (h2 : store.countError = none) (h3 : store.countRowMissing = true) :
    purge_deleted_ciphers env store now =
      { result := .ok 0, rows := store.interveningRows.getD store.rows,
        trace := [.countQ (cutoffStr env now)] } := by
  have hnot : ¬ get_purge_days env ≤ 0 := not_le.mpr hdays
  simp [purge_deleted_ciphers, hnot, h1, h2, h3]

/-- Witness for C10 on a store holding an old soft-deleted row but whose
count query returns no first row. -/
theorem C10_missing_count_row_is_zero_witness :
    0 < get_purge_days ⟨some ("30")⟩ ∧
    purge_deleted_ciphers ⟨some ("30")⟩
        ⟨[⟨1, some ("1960-01-01T00:00:00.000Z")⟩], none, none, true, none, none⟩ 0 =
      { result := .ok 0, rows := [⟨1, some ("1960-01-01T00:00:00.000Z")⟩],
        trace := [.countQ (cutoffStr ⟨some ("30")⟩ 0)] } :=
  ⟨by decide, C10_missing_count_row_is_zero _ _ _ (by decide) rfl rfl rfl⟩

/-- C1: with retention enabled and a successful count, a zero count means
no delete is issued and success 0 is returned; a nonzero count means a
delete with the identical predicate (same cutoff parameter) is executed
and the pre-delete advisory count — taken on the rows as they were at
count time, not the rows the delete affects — is returned as success. -/
theorem C1_advisory_count_then_delete (env : Env) (store : Store) (now : Int)
    (hdays : 0 < get_purge_days env) (h1 : store.d1Error = none)
    (h2 : store.countError = none) (h3 : store.countRowMissing = false)
    (h4 : store.deleteError = none) :
    ((store.rows.filter (matchesPredicate (cutoffStr env now))).length = 0 →
      purge_deleted_ciphers env store now =
        { result := .ok 0, rows := store.interveningRows.getD store.rows,
          trace := [.countQ (cutoffStr env now)] }) ∧
    (0 < (store.rows.filter (matchesPredicate (cutoffStr env now))).length →
      purge_deleted_ciphers env store now =
        { result := .ok (store.rows.filter (matchesPredicate (cutoffStr env now))).length,
          rows := (store.interveningRows.getD store.rows).filter
            (fun r => !matchesPredicate (cutoffStr env now) r),
          trace := [.countQ (cutoffStr env now), .deleteQ (cutoffStr env now)] }) := by
  have hnot : ¬ get_purge_days env ≤ 0 := not_le.mpr hdays
  constructor <;> intro hc <;>
    simp [purge_deleted_ciphers, hnot, h1, h2, h3, h4, hc]

/-- Witness for C1: one-day retention, one row soft-deleted before the
cutoff; the run counts it, deletes it, and reports the advisory count 1. -/
theorem C1_advisory_count_then_delete_witness :
    0 < get_purge_days ⟨some ("1")⟩ ∧
    purge_deleted_ciphers ⟨some ("1")⟩
        ⟨[⟨1, some ("1970-01-01T00:00:00.000Z")⟩], none, none, false, none, none⟩ 172800000 =
      { result := .ok 1, rows := [],
        trace := [.countQ (cutoffStr ⟨some ("1")⟩ 172800000),
                  .deleteQ (cutoffStr ⟨some ("1")⟩ 172800000)] } :=
  ⟨by decide,
   (C1_advisory_count_then_delete _ _ _ (by decide) rfl rfl rfl rfl).2 (by decide)⟩

/-- C4: with no concurrent overwrite, a row whose `deleted_at` is null,
or is not lexicographically below the cutoff, is still in the store after
the purge: the operation never deletes active rows or rows soft-deleted
at or after the cutoff. -/
theorem C4_never_deletes_safe_rows (env : Env) (store : Store) (now : Int)
    (hseq : store.interveningRows = none) (r : CipherRow) (hr : r ∈ store.rows)
    (hsafe : r.deleted_at = none ∨
      ∀ d, r.deleted_at = some d → ¬ d.data < (cutoffStr env now).data) :
    r ∈ (purge_deleted_ciphers env store now).rows := by
  have hm : matchesPredicate (cutoffStr env now) r = false := by
    rcases hsafe with h | h
    · simp [matchesPredicate, h]
    · cases hd : r.deleted_at with
      | none => simp [matchesPredicate, hd]
      | some d => simp [matchesPredicate, hd, h d hd]
  rcases store with ⟨rows, d1, ce, crm, de, ir⟩
  simp only at hseq hr
  subst hseq
  by_cases h : get_purge_days env ≤ 0
  · simpa [purge_deleted_ciphers, h] using hr
  · cases d1 <;> cases ce <;> cases crm <;> cases de <;>
      simp [purge_deleted_ciphers, h] <;>
      first
        | exact hr
        | (split <;> simp [List.mem_filter, hr, hm])

/-- Witness for C4: a row soft-deleted after the cutoff survives a purge
that does delete an older row. -/
theorem C4_never_deletes_safe_rows_witness :
    (⟨2, some ("1970-01-15T00:00:00.000Z")⟩ : CipherRow) ∈
      [(⟨1, some ("1970-01-02T00:00:00.000Z")⟩ : CipherRow),
       ⟨2, some ("1970-01-15T00:00:00.000Z")⟩] ∧
    (⟨2, some ("1970-01-15T00:00:00.000Z")⟩ : CipherRow) ∈
      (purge_deleted_ciphers ⟨some ("30")⟩
        ⟨[⟨1, some ("1970-01-02T00:00:00.000Z")⟩, ⟨2, some ("1970-01-15T00:00:00.000Z")⟩],
          none, none, false, none, none⟩ 3456000000).rows :=
  ⟨by decide,
   C4_never_deletes_safe_rows _ _ _ rfl _ (by decide)
     (Or.inr fun d hd => by injection hd with h; subst h; decide)⟩

/-- C5: with retention enabled, a failure of the handle acquisition, the
count query, or the delete query surfaces as the untouched underlying
error; a failed query is never reported as a successful count. -/
theorem C5_store_errors_pass_through (env : Env) (store : Store) (now : Int)
    (hdays : 0 < get_purge_days env) :
    (∀ e, store.d1Error = some e →
      (purge_deleted_ciphers env store now).result = .error e) ∧
    (∀ e, store.d1Error = none → store.countError = some e →
      (purge_deleted_ciphers env store now).result = .error e) ∧
    (∀ e, store.d1Error = none → store.countError = none →
      store.countRowMissing = false → store.deleteError = some e →
      0 < (store.rows.filter (matchesPredicate (cutoffStr env now))).length →
      (purge_deleted_ciphers env store now).result = .error e) := by
  have hnot : ¬ get_purge_days env ≤ 0 := not_le.mpr hdays
  refine ⟨fun e he => ?_, fun e h1 he => ?_, fun e h1 h2 h3 he hc => ?_⟩
  · simp [purge_deleted_ciphers, hnot, he]
  · simp [purge_deleted_ciphers, hnot, he, h1]
  · simp [purge_deleted_ciphers, hnot, he, h1, h2, h3, hc]

/-- Witness for C5: a simulated connectivity failure of the count query
is returned verbatim. -/
theorem C5_store_errors_pass_through_witness :
    0 < get_purge_days ⟨some ("30")⟩ ∧
    (purge_deleted_ciphers ⟨some ("30")⟩
        ⟨[⟨1, some ("1960-01-01T00:00:00.000Z")⟩], none, some ("connection reset"), false,
          none, none⟩ 0).result = .error ("connection reset") :=
  ⟨by decide,
   (C5_store_errors_pass_through _ _ _ (by decide)).2.1 ("connection reset") rfl rfl⟩

/-- C9: the cutoff string is a pure function of the current time and the
parsed retention value: two environments that parse to the same positive
retention give character-identical cutoff strings at the same `now`, and
the whole invocation behaves identically on any store. -/
theorem C9_cutoff_pure_function_of_now_and_days (env₁ env₂ : Env) (store : Store)
    (now : Int) (h : get_purge_days env₁ = get_purge_days env₂)
    (_hpos : 0 < get_purge_days env₁) :
    cutoffStr env₁ now = cutoffStr env₂ now ∧
    purge_deleted_ciphers env₁ store now = purge_deleted_ciphers env₂ store now := by
  have hc : cutoffStr env₁ now = cutoffStr env₂ now := by
    simp [cutoffStr, h]
  exact ⟨hc, by simp [purge_deleted_ciphers, h, hc]⟩

/-- Witness for C9: `"30"` and `"+30"` are different raw configuration
strings that parse to the same retention, so they give identical cutoffs
and identical behavior. -/
theorem C9_cutoff_pure_function_of_now_and_days_witness :
    get_purge_days ⟨some ("30")⟩ = get_purge_days ⟨some ("+30")⟩ ∧
    0 < get_purge_days ⟨some ("30")⟩ ∧
    cutoffStr ⟨some ("30")⟩ 0 = cutoffStr ⟨some ("+30")⟩ 0 :=
  ⟨by decide, by decide,
   (C9_cutoff_pure_function_of_now_and_days ⟨some ("30")⟩ ⟨some ("+30")⟩
     ⟨[], none, none, false, none, none⟩ 0 (by decide) (by decide)).1⟩

/-- Actual digits are sent to ASCII digit characters by `Nat.digitChar`. -/
theorem digitChar_isDigit : ∀ k, k < 10 → (Nat.digitChar k).isDigit = true := by decide

/-- At most `w` characters come out of `digitsAux` for numbers below `10 ^ w`. -/
theorem digitsAux_length_le :
    ∀ (fuel n w : Nat), n < 10 ^ w → 1 ≤ w → (digitsAux fuel n).length ≤ w := by
  intro fuel
  induction fuel with
  | zero => intro n w _ hw; simpa [digitsAux] using hw
  | succ f ih =>
    intro n w hn hw
    by_cases h : n < 10
    · simpa [digitsAux, h] using hw
    · have hw2 : 2 ≤ w := by
        by_contra hcon
        have hw1 : w = 1 := by omega
        subst hw1
        simp [pow_one] at hn
        omega
      have hpow : 10 ^ w = 10 ^ (w - 1) * 10 := by
        conv_lhs => rw [show w = (w - 1) + 1 by omega]
        rw [pow_succ]
      have hk : n / 10 < 10 ^ (w - 1) := by
        rw [hpow] at hn
        generalize 10 ^ (w - 1) = k at hn ⊢
        omega
      have hlen := ih (n / 10) (w - 1) hk (by omega)
      simp only [digitsAux, if_neg h, List.length_append, List.length_cons,
        List.length_nil]
      omega

/-- Every character `digitsAux` produces is an ASCII digit. -/
theorem digitsAux_all_digits :
    ∀ (fuel n : Nat) (c : Char), c ∈ digitsAux fuel n → c.isDigit = true := by
  intro fuel
  induction fuel with
  | zero =>
    intro n c hc
    simp [digitsAux] at hc
    subst hc
    exact digitChar_isDigit _ (Nat.mod_lt _ (by omega))
  | succ f ih =>
    intro n c hc
    by_cases h : n < 10
    · simp [digitsAux, h] at hc
      subst hc
      exact digitChar_isDigit _ h
    · simp [digitsAux, h] at hc
      rcases hc with hc | hc
      · exact ih _ _ hc
      · subst hc
        exact digitChar_isDigit _ (Nat.mod_lt _ (by omega))

/-- A zero-padded field has exactly its width when the value fits. -/
theorem padNum_length (w n : Nat) (hn : n < 10 ^ w) (hw : 1 ≤ w) :
    (padNum w n).length = w := by
  have h := digitsAux_length_le n n w hn hw
  show (List.replicate (w - (natDigits n).length) '0' ++ natDigits n).length = w
  simp only [natDigits] at h ⊢
  rw [List.length_append, List.length_replicate]
  omega

/-- Every character of a zero-padded field is an ASCII digit. -/
theorem padNum_digits (w n : Nat) (c : Char) (hc : c ∈ (padNum w n).data) :
    c.isDigit = true := by
  have hc' : c ∈ List.replicate (w - (natDigits n).length) '0' ++ natDigits n := hc
  rw [List.mem_append] at hc'
  rcases hc' with hc' | hc'
  · rcases List.eq_of_mem_replicate hc' with rfl
    decide
  · exact digitsAux_all_digits _ _ _ hc'

/-- On nonnegative values `intPad` is plain zero-padding. -/
theorem intPad_eq_padNum (w : Nat) (v : Int) (h : 0 ≤ v) :
    intPad w v = padNum w v.toNat := by
  simp [intPad, h.not_lt]

/-- Width of a two-digit field. -/
theorem intPad_length_two (v : Int) (h0 : 0 ≤ v) (h1 : v ≤ 99) :
    (intPad 2 v).length = 2 := by
  rw [intPad_eq_padNum 2 v h0]
  refine padNum_length 2 v.toNat ?_ (by omega)
  have h2 : (10 : Nat) ^ 2 = 100 := by norm_num
  omega

/-- Width of a three-digit field. -/
theorem intPad_length_three (v : Int) (h0 : 0 ≤ v) (h1 : v ≤ 999) :
    (intPad 3 v).length = 3 := by
  rw [intPad_eq_padNum 3 v h0]
  refine padNum_length 3 v.toNat ?_ (by omega)
  have h2 : (10 : Nat) ^ 3 = 1000 := by norm_num
  omega

/-- Width of a four-digit field. -/
theorem intPad_length_four (v : Int) (h0 : 0 ≤ v) (h1 : v ≤ 9999) :
    (intPad 4 v).length = 4 := by
  rw [intPad_eq_padNum 4 v h0]
  refine padNum_length 4 v.toNat ?_ (by omega)
  have h2 : (10 : Nat) ^ 4 = 10000 := by norm_num
  omega

/-- Characters of a nonnegative padded field are ASCII digits. -/
theorem intPad_digits (w : Nat) (v : Int) (h0 : 0 ≤ v) (c : Char)
    (hc : c ∈ (intPad w v).data) : c.isDigit = true := by
  rw [intPad_eq_padNum w v h0] at hc
  exact padNum_digits _ _ _ hc

/-- Crude but unconditional bounds on the day-of-era to day-of-year part
of the civil-from-days computation. -/
theorem civil_doy_bounds_aux (doe b c e s yoe f g doy : Int)
    (h0 : 0 ≤ doe) (h1 : doe ≤ 146096)
    (hb : b = doe / 1460) (hc : c = doe / 36524) (he : e = doe / 146096)
    (hs : s = doe - b + c - e) (hyoe : yoe = s / 365)
    (hf : f = yoe / 4) (hg : g = yoe / 100)
    (hdoy : doy = doe - (365 * yoe + f - g)) :
    -4 ≤ doy ∧ doy ≤ 371 := by
  have hc0 : 0 ≤ c ∧ c ≤ 4 := by omega
  have he0 : 0 ≤ e ∧ e ≤ 1 := by omega
  have hb0 : 0 ≤ b ∧ b ≤ 100 := by omega
  have hce : e ≤ c := by omega
  have hcb : c ≤ b := by omega
  have hsb : doe - b ≤ s ∧ s ≤ doe := by omega
  have hyoe0 : 0 ≤ yoe ∧ yoe ≤ 400 := by omega
  have hg0 : 0 ≤ g ∧ g ≤ 4 := by omega
  have hfb : f ≤ b ∧ b - 2 ≤ f := by constructor <;> omega
  constructor <;> omega

/-- Month and day bounds from the tail of the civil-from-days
computation, valid on the whole day-of-year overapproximation. -/
theorem civil_md_bounds_aux (doy mp m d : Int)
    (hdoy : -4 ≤ doy ∧ doy ≤ 371)
    (hmp : mp = (5 * doy + 2) / 153)
    (hd : d = doy - (153 * mp + 2) / 5 + 1)
    (hm : m = mp + (if mp < 10 then 3 else -9)) :
    1 ≤ m ∧ m ≤ 12 ∧ 1 ≤ d ∧ d ≤ 31 := by
  split_ifs at hm <;> refine ⟨by omega, by omega, by omega, by omega⟩

/-- The month and day fields of `civilFromDays` always lie in `[1, 12]`
and `[1, 31]`. -/
theorem civilFromDays_bounds (day : Int) :
    1 ≤ (civilFromDays day).2.1 ∧ (civilFromDays day).2.1 ≤ 12 ∧
    1 ≤ (civilFromDays day).2.2 ∧ (civilFromDays day).2.2 ≤ 31 := by
  unfold civilFromDays
  dsimp only
  have hdoy := civil_doy_bounds_aux
    (day + 719468 - (day + 719468) / 146097 * 146097) _ _ _ _ _ _ _ _
    (by omega) (by omega) rfl rfl rfl rfl rfl rfl rfl rfl
  exact civil_md_bounds_aux _ _ _ _ hdoy rfl rfl rfl

/-- Any instant whose year lies in `[0, 9999]` formats as
`YYYY-MM-DDTHH:MM:SS.sssZ`: four/two/two/two/two/two/three all-digit
fields with the literal separators and the `Z` suffix. -/
theorem fmtMillis_shape (t : Int) (hy0 : 0 ≤ yearOf t) (hy1 : yearOf t ≤ 9999) :
    ∃ sy smo sd sh smi ss sms : String,
      sy.length = 4 ∧ smo.length = 2 ∧ sd.length = 2 ∧ sh.length = 2 ∧
      smi.length = 2 ∧ ss.length = 2 ∧ sms.length = 3 ∧
      (∀ c ∈ (sy ++ smo ++ sd ++ sh ++ smi ++ ss ++ sms).data, c.isDigit = true) ∧
      fmtMillis t =
        sy ++ "-" ++ smo ++ "-" ++ sd ++ "T" ++ sh ++ ":" ++ smi ++ ":" ++ ss ++
          "." ++ sms ++ "Z" := by
  have hmd := civilFromDays_bounds (t / 1000 / 86400)
  have hy0' : 0 ≤ (civilFromDays (t / 1000 / 86400)).1 := hy0
  have hy1' : (civilFromDays (t / 1000 / 86400)).1 ≤ 9999 := hy1
  refine ⟨intPad 4 (civilFromDays (t / 1000 / 86400)).1,
    intPad 2 (civilFromDays (t / 1000 / 86400)).2.1,
    intPad 2 (civilFromDays (t / 1000 / 86400)).2.2,
    intPad 2 (t / 1000 % 86400 / 3600),
    intPad 2 (t / 1000 % 86400 % 3600 / 60),
    intPad 2 (t / 1000 % 86400 % 60),
    intPad 3 (t % 1000),
    intPad_length_four _ hy0' hy1',
    intPad_length_two _ (by omega) (by omega),
    intPad_length_two _ (by omega) (by omega),
    intPad_length_two _ (by omega) (by omega),
    intPad_length_two _ (by omega) (by omega),
    intPad_length_two _ (by omega) (by omega),
    intPad_length_three _ (by omega) (by omega),
    ?_, rfl⟩
  intro c hc
  simp only [String.data_append, List.mem_append] at hc
  rcases hc with ((((((hc | hc) | hc) | hc) | hc) | hc) | hc)
  · exact intPad_digits _ _ hy0' _ hc
  · exact intPad_digits _ _ (by omega) _ hc
  · exact intPad_digits _ _ (by omega) _ hc
  · exact intPad_digits _ _ (by omega) _ hc
  · exact intPad_digits _ _ (by omega) _ hc
  · exact intPad_digits _ _ (by omega) _ hc
  · exact intPad_digits _ _ (by omega) _ hc

/-- C3: for positive retention, the cutoff bound in every issued query is
the serialization of `now` minus `retention_days` days (in epoch
milliseconds, i.e. UTC), and — whenever the cutoff's year has four digits
— that string has the exact shape `YYYY-MM-DDTHH:MM:SS.sssZ`: all-digit
fields of widths 4, 2, 2, 2, 2, 2 and 3, millisecond precision, literal
`Z` suffix. -/
theorem C3_cutoff_value_and_format (env : Env) (store : Store) (now : Int)
    (hdays : 0 < get_purge_days env)
    (hy0 : 0 ≤ yearOf (now - get_purge_days env * msPerDay))
    (hy1 : yearOf (now - get_purge_days env * msPerDay) ≤ 9999) :
    cutoffStr env now = fmtMillis (now - get_purge_days env * msPerDay) ∧
    (∀ op ∈ (purge_deleted_ciphers env store now).trace,
      StoreOp.cutoffArg op = cutoffStr env now) ∧
    (∃ sy smo sd sh smi ss sms : String,
      sy.length = 4 ∧ smo.length = 2 ∧ sd.length = 2 ∧ sh.length = 2 ∧
      smi.length = 2 ∧ ss.length = 2 ∧ sms.length = 3 ∧
      (∀ c ∈ (sy ++ smo ++ sd ++ sh ++ smi ++ ss ++ sms).data, c.isDigit = true) ∧
      cutoffStr env now =
        sy ++ "-" ++ smo ++ "-" ++ sd ++ "T" ++ sh ++ ":" ++ smi ++ ":" ++ ss ++
          "." ++ sms ++ "Z") := by
  have hnot : ¬ get_purge_days env ≤ 0 := not_le.mpr hdays
  refine ⟨rfl, ?_, fmtMillis_shape _ hy0 hy1⟩
  rcases store with ⟨rows, d1, ce, crm, de, ir⟩
  cases d1 <;> cases ce <;> cases crm <;> cases de <;>
    simp [purge_deleted_ciphers, hnot, StoreOp.cutoffArg] <;> split <;>
    simp [StoreOp.cutoffArg]

/-- Witness for C3: 30-day retention, `now` 40 days into the epoch; the
run issues a count and a delete, both bound to the computed cutoff. -/
theorem C3_cutoff_value_and_format_witness :
    0 < get_purge_days ⟨some ("30")⟩ ∧
    0 ≤ yearOf (3456000000 - get_purge_days ⟨some ("30")⟩ * msPerDay) ∧
    yearOf (3456000000 - get_purge_days ⟨some ("30")⟩ * msPerDay) ≤ 9999 ∧
    (cutoffStr ⟨some ("30")⟩ 3456000000 =
      fmtMillis (3456000000 - get_purge_days ⟨some ("30")⟩ * msPerDay) ∧
    (∀ op ∈ (purge_deleted_ciphers ⟨some ("30")⟩
        ⟨[⟨1, some ("1970-01-01T00:00:00.000Z")⟩], none, none, false, none, none⟩
        3456000000).trace,
      StoreOp.cutoffArg op = cutoffStr ⟨some ("30")⟩ 3456000000) ∧
    (∃ sy smo sd sh smi ss sms : String,
      sy.length = 4 ∧ smo.length = 2 ∧ sd.length = 2 ∧ sh.length = 2 ∧
      smi.length = 2 ∧ ss.length = 2 ∧ sms.length = 3 ∧
      (∀ c ∈ (sy ++ smo ++ sd ++ sh ++ smi ++ ss ++ sms).data, c.isDigit = true) ∧
      cutoffStr ⟨some ("30")⟩ 3456000000 =
        sy ++ "-" ++ smo ++ "-" ++ sd ++ "T" ++ sh ++ ":" ++ smi ++ ":" ++ ss ++
          "." ++ sms ++ "Z")) :=
  ⟨by decide, by decide, by decide,
   C3_cutoff_value_and_format ⟨some ("30")⟩
     ⟨[⟨1, some ("1970-01-01T00:00:00.000Z")⟩], none, none, false, none, none⟩
     3456000000 (by decide) (by decide) (by decide)⟩

/-- After a successful run with no errors, no missing count row and no
concurrent overwrite, no row left in the store matches that run's delete
predicate. -/
theorem purge_rows_no_match (env : Env) (s : Store) (now : Int)
    (hdays : 0 < get_purge_days env)
    (h1 : s.d1Error = none) (h2 : s.countError = none)
    (h3 : s.countRowMissing = false) (h4 : s.deleteError = none)
    (h5 : s.interveningRows = none) (r : CipherRow)
    (hr : r ∈ (purge_deleted_ciphers env s now).rows) :
    matchesPredicate (cutoffStr env now) r = false := by
  have hnot : ¬ get_purge_days env ≤ 0 := not_le.mpr hdays
  rcases s with ⟨rows, d1, ce, crm, de, ir⟩
  simp only at h1 h2 h3 h4 h5
  subst h1; subst h2; subst h3; subst h4; subst h5
  simp [purge_deleted_ciphers, hnot] at hr
  split at hr
  · rw [List.mem_filter] at hr
    simpa using hr.2
  · rename_i hcnt
    have hfil : rows.filter (matchesPredicate (cutoffStr env now)) = [] :=
      List.length_eq_zero.mp (by omega)
    by_contra hm
    have hmem : r ∈ rows.filter (matchesPredicate (cutoffStr env now)) :=
      List.mem_filter.mpr ⟨hr, by simpa using hm⟩
    simp [hfil] at hmem

/-- C7 (amended): if a first run completes normally (no errors, count row
present, no concurrent overwrite) and a second run starts from the first
run's rows with a cutoff no LATER than the first run's, the second run
deletes nothing and reports success 0. -/
theorem C7_second_run_reports_zero (env : Env) (s₁ s₂ : Store) (now₁ now₂ : Int)
    (hdays : 0 < get_purge_days env)
    (h11 : s₁.d1Error = none) (h12 : s₁.countError = none)
    (h13 : s₁.countRowMissing = false) (h14 : s₁.deleteError = none)
    (h15 : s₁.interveningRows = none)
    (h21 : s₂.d1Error = none) (h22 : s₂.countError = none)
    (h23 : s₂.countRowMissing = false) (h25 : s₂.interveningRows = none)
    (hrows : s₂.rows = (purge_deleted_ciphers env s₁ now₁).rows)
    (hcut : (cutoffStr env now₂).data ≤ (cutoffStr env now₁).data) :
    purge_deleted_ciphers env s₂ now₂ =
      { result := .ok 0, rows := s₂.rows,
        trace := [.countQ (cutoffStr env now₂)] } := by
  have hnot : ¬ get_purge_days env ≤ 0 := not_le.mpr hdays
  have key : ∀ r ∈ s₂.rows, matchesPredicate (cutoffStr env now₂) r = false := by
    intro r hr
    have h1 := purge_rows_no_match env s₁ now₁ hdays h11 h12 h13 h14 h15 r
      (hrows ▸ hr)
    cases hd : r.deleted_at with
    | none => simp [matchesPredicate, hd]
    | some d =>
      simp [matchesPredicate, hd] at h1 ⊢
      exact le_trans hcut h1
  have hfil : s₂.rows.filter (matchesPredicate (cutoffStr env now₂)) = [] := by
    rw [List.filter_eq_nil_iff]
    intro a ha
    simp [key a ha]
  rcases s₂ with ⟨rows, d1, ce, crm, de, ir⟩
  simp only at h21 h22 h23 h25 hfil ⊢
  subst h21; subst h22; subst h23; subst h25
  simp [purge_deleted_ciphers, hnot, hfil]

/-- Witness for C7 (amended): second run immediately after a first run
that purged one row, at the identical cutoff, reports 0. -/
theorem C7_second_run_reports_zero_witness :
    0 < get_purge_days ⟨some ("1")⟩ ∧
    purge_deleted_ciphers ⟨some ("1")⟩ ⟨[], none, none, false, none, none⟩ 172800000 =
      { result := .ok 0, rows := [],
        trace := [.countQ (cutoffStr ⟨some ("1")⟩ 172800000)] } :=
  ⟨by decide,
   C7_second_run_reports_zero ⟨some ("1")⟩
     ⟨[⟨1, some ("1970-01-01T00:00:00.000Z")⟩], none, none, false, none, none⟩
     ⟨[], none, none, false, none, none⟩ 172800000 172800000
     (by decide) rfl rfl rfl rfl rfl rfl rfl rfl rfl rfl (by decide)⟩

/-- Counterexample to C7 as stated: with one-day retention, a row
soft-deleted at 1970-01-02T12:00 survives a first run at
`now₁` = 1970-01-03 (cutoff 1970-01-02T00:00, run reports 0, rows
unchanged — so no new soft-deletions happen between runs), yet a second
run on the very same rows at `now₂` = 1970-01-04 — whose cutoff
1970-01-03T00:00 is no earlier than the first — deletes that row and
reports 1, not 0. -/
theorem C7_counterexample_later_cutoff_deletes :
    (cutoffStr ⟨some ("1")⟩ 172800000).data ≤ (cutoffStr ⟨some ("1")⟩ 259200000).data ∧
    purge_deleted_ciphers ⟨some ("1")⟩
        ⟨[⟨1, some ("1970-01-02T12:00:00.000Z")⟩], none, none, false, none, none⟩
        172800000 =
      { result := .ok 0, rows := [⟨1, some ("1970-01-02T12:00:00.000Z")⟩],
        trace := [.countQ (cutoffStr ⟨some ("1")⟩ 172800000)] } ∧
    (purge_deleted_ciphers ⟨some ("1")⟩
        ⟨[⟨1, some ("1970-01-02T12:00:00.000Z")⟩], none, none, false, none, none⟩
        259200000).result = .ok 1 ∧
    (purge_deleted_ciphers ⟨some ("1")⟩
        ⟨[⟨1, some ("1970-01-02T12:00:00.000Z")⟩], none, none, false, none, none⟩
        259200000).trace =
      [.countQ (cutoffStr ⟨some ("1")⟩ 259200000),
       .deleteQ (cutoffStr ⟨some ("1")⟩ 259200000)] :=
  ⟨by decide, rfl, rfl, rfl⟩
